import Mathlib

/-!
A shallow embedding of the `virtuc` compiler core (lexer, parser, header
registry, semantic analyzer, bytecode compiler, virtual machine) together
with theorems settling the frozen claims about it.

Conventions used throughout:
* Rust `i64` payloads are modelled as `Int` (none of the properties proved
  below depends on wrap-around overflow); `f64` payloads are modelled as `ℚ`
  (no property proved below depends on the value of any float computation).
* Rust `HashMap` values are modelled as association lists with
  insert-at-the-head and first-match lookup; this realizes the observable
  `insert`/`get`/`contains_key` behaviour (latest insert wins) of the maps in
  the source, none of which is ever iterated.
* A Rust panic (an abort that is not a `Result::Err`) is modelled by a
  distinguished outcome, and exhaustion of the explicit fuel of a loop by
  `Option.none`, so that a `some` result always reflects the source's
  behaviour.
-/

namespace Virtuc

/-- Association list lookup, first match wins (models `HashMap::get` under the
insert-at-head refinement). -/
def alookup {α : Type} (m : List (String × α)) (k : String) : Option α :=
  match m with
  | [] => none
  | (k', v) :: rest => if k' = k then some v else alookup rest k

/-- `HashMap::insert` under the association-list refinement: the new binding
shadows any older one. -/
def ainsert {α : Type} (m : List (String × α)) (k : String) (v : α) :
    List (String × α) :=
  (k, v) :: m

/-- `HashMap::contains_key` under the association-list refinement. -/
def acontains {α : Type} (m : List (String × α)) (k : String) : Bool :=
  (alookup m k).isSome

/-- The `Type` enumeration exactly as declared in `src/ast.rs` (lines 22-28):
the variants are `Int` and `Float` and nothing else. It is kept verbatim here
because claim C4 is about this very enumeration. -/
inductive AstType where
  | int
  | float
  deriving DecidableEq, Repr, Fintype

/-- The value type used by the rest of the pipeline. `src/ast.rs` declares
only `Int` and `Float` (see `AstType`), but `src/parser.rs` (line 58),
`src/header_registry.rs` (line 29) and `src/codegen.rs` all use a third
variant `Type::String` that is absent from `src/ast.rs`. Modelled from the
spec: the `String` variant of the closed enumeration `{Int, Float, String}`
of spec section 3 is added so that those modules are representable. -/
inductive Ty where
  | int
  | float
  | str
  deriving DecidableEq, Repr

/-- Binary operators, from `src/ast.rs` (`BinOp`). -/
inductive BinOp where
  | plus
  | minus
  | multiply
  | divide
  | equal
  | notEqual
  | lessThan
  | greaterThan
  | lessEqual
  | greaterEqual
  deriving DecidableEq, Repr

/-- Literals. `src/ast.rs` declares `Int(i64)` and `Float(f64)`; the
`String` payload produced by `src/parser.rs` (line 81) and consumed by
`src/codegen.rs` is added, modelled from the spec (section 3, literal
payloads). -/
inductive Literal where
  | int (i : Int)
  | float (q : ℚ)
  | str (s : String)
  deriving DecidableEq, Repr

/-- Expressions, from `src/ast.rs` (`Expr`): literal, identifier, binary,
call, assignment. -/
inductive Expr where
  | literal (lit : Literal)
  | ident (name : String)
  | binary (left : Expr) (op : BinOp) (right : Expr)
  | call (name : String) (args : List Expr)
  | assign (name : String) (value : Expr)

/-- Statements, from `src/ast.rs` (`Stmt`): declaration, return, block,
if-else, for, expression statement. -/
inductive Stmt where
  | declaration (ty : Ty) (name : String) (init : Option Expr)
  | ret (e : Option Expr)
  | block (stmts : List Stmt)
  | ifS (cond : Expr) (then_ : Stmt) (else_ : Option Stmt)
  | forS (init : Option Stmt) (cond : Option Expr) (update : Option Expr)
      (body : Stmt)
  | exprS (e : Expr)

/-- A function definition, from `src/ast.rs` (`Function`). -/
structure Function where
  return_ty : Ty
  name : String
  params : List (Ty × String)
  body : Stmt

/-- An external function declaration, from `src/ast.rs` (`ExternFunction`). -/
structure ExtFun where
  return_ty : Ty
  name : String
  param_types : List Ty
  is_variadic : Bool
  deriving DecidableEq, Repr

/-- The top-level program. `src/ast.rs` declares the two function lists; the
`includes` field constructed by `src/parser.rs` (lines 434-438) is added,
modelled from the spec (section 3, `Program`). -/
structure Program where
  includes : List String
  extFunctions : List ExtFun
  functions : List Function

/-- Semantic diagnostics, from `src/error.rs` (`SemanticError`). -/
inductive SemanticError where
  | undefinedVariable (name : String)
  | duplicateVariable (name : String)
  | typeMismatch (msg : String)
  | undefinedFunction (name : String)
  | wrongArgumentCount (func : String) (expected : Nat) (got : Nat)
  | returnTypeMismatch (msg : String)
  deriving DecidableEq, Repr

/-! ## Virtual machine (`src/vm.rs`) -/

/-- Runtime values, from `src/vm.rs` (`Value`): `Int(i64)`, `Float(f64)`,
`Void`. -/
inductive Value where
  | int (i : Int)
  | float (q : ℚ)
  | void
  deriving DecidableEq, Repr

/-- `Value::is_truthy` from `src/vm.rs` (lines 26-32). -/
def Value.isTruthy : Value → Bool
  | .int i => i ≠ 0
  | .float f => f ≠ 0
  | .void => false

/-- Bytecode instructions, from `src/vm.rs` (`Opcode`). -/
inductive Opcode where
  | loadConst (v : Value)
  | loadVar (name : String)
  | storeVar (name : String)
  | binaryOp (op : BinOp)
  | jump (target : Nat)
  | jumpIfFalse (target : Nat)
  | call (name : String) (argCount : Nat)
  | ret
  | pop
  | halt
  deriving DecidableEq, Repr

/-- The float/float arm of `VM::eval_binary` (`src/vm.rs` lines 205-216);
the mixed-type arms delegate to it after promoting the `Int` operand.
Comparisons yield `Int` 1/0. Float division by zero is total here (`ℚ`
gives 0 where `f64` gives an infinity); no theorem below depends on the
value of any float operation. -/
def evalFloatOp (l : ℚ) (op : BinOp) (r : ℚ) : Value :=
  match op with
  | .plus => .float (l + r)
  | .minus => .float (l - r)
  | .multiply => .float (l * r)
  | .divide => .float (l / r)
  | .equal => .int (if l = r then 1 else 0)
  | .notEqual => .int (if l ≠ r then 1 else 0)
  | .lessThan => .int (if l < r then 1 else 0)
  | .greaterThan => .int (if r < l then 1 else 0)
  | .lessEqual => .int (if l ≤ r then 1 else 0)
  | .greaterEqual => .int (if r ≤ l then 1 else 0)

/-- `VM::eval_binary` from `src/vm.rs` (lines 191-222). `none` models a Rust
panic: `Value::Int(l / r)` at line 197 panics when `r == 0` (and this is the
only abort of the function that is not a constructed `Value`). Nonzero
`i64` division truncates toward zero, i.e. `Int.tdiv`. Mixed `Int`/`Float`
operands promote the `Int` side to `Float` (lines 218-219); any other pair
yields `Value::Void` (line 220). -/
def evalBinary (left : Value) (op : BinOp) (right : Value) : Option Value :=
  match left, right with
  | .int l, .int r =>
    match op with
    | .plus => some (.int (l + r))
    | .minus => some (.int (l - r))
    | .multiply => some (.int (l * r))
    | .divide => if r = 0 then none else some (.int (Int.tdiv l r))
    | .equal => some (.int (if l = r then 1 else 0))
    | .notEqual => some (.int (if l ≠ r then 1 else 0))
    | .lessThan => some (.int (if l < r then 1 else 0))
    | .greaterThan => some (.int (if r < l then 1 else 0))
    | .lessEqual => some (.int (if l ≤ r then 1 else 0))
    | .greaterEqual => some (.int (if r ≤ l then 1 else 0))
  | .float l, .float r => some (evalFloatOp l op r)
  | .int l, .float r => some (evalFloatOp (l : ℚ) op r)
  | .float l, .int r => some (evalFloatOp l op (r : ℚ))
  | _, _ => some .void

/-- A stack frame, from `src/vm.rs` (`Frame`). -/
structure Frame where
  return_ip : Nat
  locals : List (String × Value)
  deriving DecidableEq, Repr

/-- The mutable VM state of `src/vm.rs` (`VM`): instruction memory, operand
stack, frame stack, instruction pointer, function entry table. -/
structure VMState where
  code : List Opcode
  stack : List Value
  frames : List Frame
  ip : Nat
  functions : List (String × Nat)
  deriving DecidableEq, Repr

/-- Outcome of a `VM::run` call: `val` for `Ok(value)`, `fault` for
`Err(message)`, `crash` for a Rust panic inside the loop. -/
inductive VmOut where
  | val (v : Value)
  | fault (msg : String)
  | crash
  deriving DecidableEq, Repr

/-- Result of one iteration of the `VM::run` loop: continue with a new
state, or stop with an outcome. -/
inductive StepRes where
  | cont (st : VMState)
  | stop (out : VmOut)
  deriving DecidableEq, Repr

/-- The single quote character, used in the missing-`main` message of
`src/vm.rs` line 107. -/
def squote : String := (Char.ofNat 39).toString

/-- The startup failure message of `src/vm.rs` line 107. -/
def mainNotFoundMsg : String := "Function " ++ squote ++ "main" ++ squote ++ " not found"

/-- One iteration of the `VM::run` fetch-decode-execute loop (`src/vm.rs`
lines 110-186), including the `ip >= code.len()` loop exit (lines 111-113)
and the fall-off-the-end result `Ok(stack.pop().unwrap_or(Void))` (line
188). Notes kept faithful to the source:
* `StoreVar` pops first and only then looks at the frame stack (lines
  131-141);
* `BinaryOp` pops right then left, each pop faulting with a stack
  underflow (lines 142-147), and `eval_binary` can panic (`crash`);
* `Return` pops the frame, restores `ip`, and ends the run with
  `Ok(stack.pop().unwrap_or(Void))` only when the frame stack becomes
  empty (lines 169-180);
* `Pop` is `self.stack.pop();` with the result discarded (lines 181-183):
  an empty operand stack is silently ignored;
* `Halt` breaks the loop, yielding `Ok(stack.pop().unwrap_or(Void))`. -/
def step (st : VMState) : StepRes :=
  match st.code.get? st.ip with
  | none => .stop (.val ((st.stack.head?).getD .void))
  | some op =>
    let st' : VMState := { st with ip := st.ip + 1 }
    match op with
    | .loadConst v => .cont { st' with stack := v :: st'.stack }
    | .loadVar name =>
      match st'.frames.head? with
      | some fr =>
        match alookup fr.locals name with
        | some v => .cont { st' with stack := v :: st'.stack }
        | none => .stop (.fault ("Undefined variable: " ++ name))
      | none => .stop (.fault "No active stack frame")
    | .storeVar name =>
      match st'.stack with
      | v :: rest =>
        match st'.frames with
        | fr :: frs =>
          .cont { st' with stack := rest,
                           frames := { fr with locals := ainsert fr.locals name v } :: frs }
        | [] => .stop (.fault "No active stack frame")
      | [] => .stop (.fault "Stack underflow")
    | .binaryOp op =>
      match st'.stack with
      | right :: left :: rest =>
        match evalBinary left op right with
        | some res => .cont { st' with stack := res :: rest }
        | none => .stop .crash
      | _ => .stop (.fault "Stack underflow")
    | .jump target => .cont { st' with ip := target }
    | .jumpIfFalse target =>
      match st'.stack with
      | v :: rest =>
        .cont { st' with stack := rest, ip := if v.isTruthy then st'.ip else target }
      | [] => .stop (.fault "Stack underflow")
    | .call name _ =>
      match alookup st'.functions name with
      | some addr =>
        .cont { st' with frames := ⟨st'.ip, []⟩ :: st'.frames, ip := addr }
      | none => .stop (.fault ("Undefined function: " ++ name))
    | .ret =>
      match st'.frames with
      | fr :: frs =>
        if frs.isEmpty then .stop (.val ((st'.stack.head?).getD .void))
        else .cont { st' with ip := fr.return_ip, frames := frs }
      | [] => .stop (.fault "Call stack underflow")
    | .pop => .cont { st' with stack := st'.stack.tail }
    | .halt => .stop (.val ((st'.stack.head?).getD .void))

/-- The `VM::run` loop iterated under fuel; `none` means the fuel ran out
(the source loop has no bound of its own). -/
def runLoop : Nat → VMState → Option VmOut
  | 0, _ => none
  | n + 1, st =>
    match step st with
    | .cont st' => runLoop n st'
    | .stop out => some out

/-- `VM::run` from `src/vm.rs` (lines 97-189): look up `main` (its absence
is the fatal startup error of line 107, produced before any instruction
executes, hence independent of the fuel), push the seed frame whose
`return_ip` is `code.len()` (line 103), jump to `main`'s entry, and
iterate the loop. -/
def runVM (code : List Opcode) (functions : List (String × Nat)) (fuel : Nat) :
    Option VmOut :=
  match alookup functions "main" with
  | some addr =>
    runLoop fuel { code := code, stack := [], frames := [⟨code.length, []⟩],
                   ip := addr, functions := functions }
  | none => some (.fault mainNotFoundMsg)

/-! ## Lexer (`src/lexer.rs`) -/

/-- The token vocabulary of `src/lexer.rs` (`Token`). `kwExt` is the token
for the external-declaration keyword; `includeDir` carries the header name
extracted from an include directive. -/
inductive Token where
  | kwInt
  | kwFloat
  | kwString
  | kwIf
  | kwElse
  | kwFor
  | kwReturn
  | kwExt
  | ident (s : String)
  | floatLit (q : ℚ)
  | intLit (i : Int)
  | strLit (s : String)
  | includeDir (s : String)
  | lessEqual
  | greaterEqual
  | equal
  | notEqual
  | lessThan
  | greaterThan
  | assign
  | plus
  | minus
  | multiply
  | divide
  | semicolon
  | comma
  | lparen
  | rparen
  | lbrace
  | rbrace
  | ellipsis
  deriving DecidableEq, Repr

/-- The backslash character. -/
def bslash : Char := Char.ofNat 92

/-- The single-quote character. -/
def squoteChar : Char := Char.ofNat 39

/-- Whitespace skipped by the lexer: the logos skip pattern is the character
class of space, tab, newline and form feed (`src/lexer.rs` line 26). -/
def isSkipWs (c : Char) : Bool :=
  c = ' ' || c = Char.ofNat 9 || c = Char.ofNat 10 || c = Char.ofNat 12

/-- Whitespace accepted between `#include` and `<` by the include-directive
regex (a full regex whitespace class). -/
def isRegexWs (c : Char) : Bool :=
  isSkipWs c || c = Char.ofNat 13 || c = Char.ofNat 11

/-- Hexadecimal digit value (`char::to_digit(16)`). -/
def hexVal (c : Char) : Option Nat :=
  if '0' ≤ c ∧ c ≤ '9' then some (c.toNat - 48)
  else if 'a' ≤ c ∧ c ≤ 'f' then some (c.toNat - 87)
  else if 'A' ≤ c ∧ c ≤ 'F' then some (c.toNat - 55)
  else none

/-- `unescape_c_string` from `src/lexer.rs` (lines 188-234): resolve the
C-style escapes, pass unknown escapes through literally, keep a trailing
lone backslash, and decode up to two hex digits after a backslash-x (with
the source's literal fallbacks when the digits are missing or invalid). -/
def unescapeC : List Char → List Char
  | [] => []
  | c :: rest =>
    if c = bslash then
      match rest with
      | [] => [bslash]
      | e :: rest2 =>
        if e = 'n' then Char.ofNat 10 :: unescapeC rest2
        else if e = 't' then Char.ofNat 9 :: unescapeC rest2
        else if e = 'r' then Char.ofNat 13 :: unescapeC rest2
        else if e = squoteChar then squoteChar :: unescapeC rest2
        else if e = '"' then '"' :: unescapeC rest2
        else if e = '0' then Char.ofNat 0 :: unescapeC rest2
        else if e = 'x' then
          match rest2 with
          | [] => []
          | h :: rest3 =>
            match rest3 with
            | [] =>
              match hexVal h with
              | some hv => [Char.ofNat hv]
              | none => ['x', h]
            | l :: rest4 =>
              match hexVal h, hexVal l with
              | some hv, some lv => Char.ofNat (hv * 16 + lv) :: unescapeC rest4
              | _, _ => 'x' :: h :: l :: unescapeC rest4
        else e :: unescapeC rest2
    else c :: unescapeC rest

/-- Digit run to a natural number. -/
def natOfDigits (l : List Char) : Nat :=
  l.foldl (fun a c => a * 10 + (c.toNat - 48)) 0

/-- Identifier start characters (`[a-zA-Z_]`). -/
def isIdentStart (c : Char) : Bool :=
  ('a' ≤ c && c ≤ 'z') || ('A' ≤ c && c ≤ 'Z') || c = '_'

/-- Identifier continuation characters (`[a-zA-Z0-9_]`). -/
def isIdentChar (c : Char) : Bool :=
  isIdentStart c || c.isDigit

/-- Keyword resolution: the exact keyword tokens of `src/lexer.rs` take
precedence over the identifier pattern on an exact match. -/
def keywordOrIdent (s : String) : Token :=
  if s = "int" then .kwInt
  else if s = "float" then .kwFloat
  else if s = "string" then .kwString
  else if s = "if" then .kwIf
  else if s = "else" then .kwElse
  else if s = "for" then .kwFor
  else if s = "return" then .kwReturn
  else if s = "extern" then .kwExt
  else .ident s

/-- Scan the body of a string literal after its opening quote, following the
string-literal regex of `src/lexer.rs` line 72: a body character is any
character other than a quote or a backslash, or a backslash followed by any
character; the body ends at the first unescaped quote, and a missing closing
quote matches no token. Returns the raw body and the remaining input. -/
def scanStr : List Char → Option (List Char × List Char)
  | [] => none
  | c :: r =>
    if c = '"' then some ([], r)
    else if c = bslash then
      match r with
      | [] => none
      | e :: r2 =>
        match scanStr r2 with
        | some (b, rr) => some (c :: e :: b, rr)
        | none => none
    else
      match scanStr r with
      | some (b, rr) => some (c :: b, rr)
      | none => none

/-- Scan one token by maximal munch at a position known not to hold skipped
trivia, mirroring the token patterns of `src/lexer.rs`: the include
directive, string literals, `\d+\.\d+` floats before `\d+` integers,
keywords before identifiers, and two-character operators (and the
three-character ellipsis) before their one-character prefixes. Returns the
token and the rest of the input; `none` is the lexing error for an input
span matching no pattern. -/
def scanToken (cs : List Char) : Option (Token × List Char) :=
  match cs with
  | [] => none
  | c :: rest =>
    if ("#include".toList).isPrefixOf cs then
      let afterWs := (cs.drop 8).dropWhile isRegexWs
      match afterWs with
      | '<' :: r2 =>
        let hdr := r2.takeWhile (· ≠ '>')
        if hdr.isEmpty then none
        else
          match r2.dropWhile (· ≠ '>') with
          | '>' :: r3 => some (.includeDir ⟨hdr⟩, r3)
          | _ => none
      | _ => none
    else if c = '"' then
      match scanStr rest with
      | some (body, r2) => some (.strLit ⟨unescapeC body⟩, r2)
      | none => none
    else if c.isDigit then
      let ds := cs.takeWhile Char.isDigit
      let r1 := cs.drop ds.length
      match r1 with
      | '.' :: r2 =>
        if (r2.head?.map Char.isDigit).getD false then
          let fs := r2.takeWhile Char.isDigit
          let q : ℚ := (natOfDigits ds : ℚ) + (natOfDigits fs : ℚ) / ((10 : ℚ) ^ fs.length)
          some (.floatLit q, r2.drop fs.length)
        else some (.intLit (natOfDigits ds), r1)
      | _ => some (.intLit (natOfDigits ds), r1)
    else if isIdentStart c then
      let idc := cs.takeWhile isIdentChar
      some (keywordOrIdent ⟨idc⟩, cs.drop idc.length)
    else if ("...".toList).isPrefixOf cs then some (.ellipsis, cs.drop 3)
    else if ("<=".toList).isPrefixOf cs then some (.lessEqual, cs.drop 2)
    else if (">=".toList).isPrefixOf cs then some (.greaterEqual, cs.drop 2)
    else if ("==".toList).isPrefixOf cs then some (.equal, cs.drop 2)
    else if ("!=".toList).isPrefixOf cs then some (.notEqual, cs.drop 2)
    else if c = '<' then some (.lessThan, rest)
    else if c = '>' then some (.greaterThan, rest)
    else if c = '=' then some (.assign, rest)
    else if c = '+' then some (.plus, rest)
    else if c = '-' then some (.minus, rest)
    else if c = '*' then some (.multiply, rest)
    else if c = '/' then some (.divide, rest)
    else if c = ';' then some (.semicolon, rest)
    else if c = ',' then some (.comma, rest)
    else if c = '(' then some (.lparen, rest)
    else if c = ')' then some (.rparen, rest)
    else if c = Char.ofNat 123 then some (.lbrace, rest)
    else if c = Char.ofNat 125 then some (.rbrace, rest)
    else none

/-- The token-collection loop of `lex` (`src/lexer.rs` lines 173-185) under
fuel: skip whitespace and `//` line comments, otherwise scan one token;
`none` at fuel zero only (each step consumes at least one character, so
`length + 1` fuel always suffices), and a scan failure is the lexing
error, which aborts the whole call. -/
def lexChars : Nat → List Char → Option (List Token)
  | 0, _ => none
  | _, [] => some []
  | f + 1, c :: cs =>
    if isSkipWs c then lexChars f cs
    else if c = '/' ∧ cs.head? = some '/' then
      lexChars f (cs.dropWhile (· ≠ Char.ofNat 10))
    else
      match scanToken (c :: cs) with
      | some (tok, rest) =>
        match lexChars f rest with
        | some toks => some (tok :: toks)
        | none => none
      | none => none

/-- `lex` from `src/lexer.rs`: tokenize the whole source, `none` being the
fatal `LexerError`. -/
def lex (src : String) : Option (List Token) :=
  lexChars (src.length + 1) src.toList

/-! ## Header registry (`src/header_registry.rs`) -/

/-- `externs_for_header` from `src/header_registry.rs` (lines 23-33): the
static table maps `stdio.h` to the single declaration of a variadic
`printf` whose fixed parameter list is one string, and any other header to
the empty list. -/
def externsForHeader (header : String) : List ExtFun :=
  if header = "stdio.h" then
    [{ return_ty := .int, name := "printf", param_types := [.str], is_variadic := true }]
  else []

/-! ## Parser (`src/parser.rs`)

Each nom parser is modelled as a function from the remaining token list to
`PRes`: `ok rest value` for `Ok((rest, value))` and `fail` for a nom
`Err::Error` (the error payloads, never inspected by the source, are
dropped). Recursive parsers additionally take fuel, decremented on every
nested call; `none` means the fuel ran out, so a `some` result always
reflects nom's behaviour. -/

/-- Result of one nom parser application. -/
inductive PRes (α : Type) where
  | ok (rest : List Token) (val : α)
  | fail
  deriving Repr

/-- The `token` helper of `src/parser.rs` (lines 40-51): match one expected
token at the head of the input. -/
def tokenP (expected : Token) (input : List Token) : PRes Token :=
  match input with
  | [] => .fail
  | t :: rest => if t = expected then .ok rest expected else .fail

/-- `parse_type` (`src/parser.rs` lines 54-60): `int`, `float` or `string`. -/
def parseTypeP (input : List Token) : PRes Ty :=
  match input with
  | .kwInt :: rest => .ok rest .int
  | .kwFloat :: rest => .ok rest .float
  | .kwString :: rest => .ok rest .str
  | _ => .fail

/-- `parse_identifier` (`src/parser.rs` lines 63-71). -/
def parseIdentP (input : List Token) : PRes String :=
  match input with
  | .ident name :: rest => .ok rest name
  | _ => .fail

/-- `parse_literal` (`src/parser.rs` lines 74-84). -/
def parseLiteralP (input : List Token) : PRes Literal :=
  match input with
  | .intLit n :: rest => .ok rest (.int n)
  | .floatLit q :: rest => .ok rest (.float q)
  | .strLit s :: rest => .ok rest (.str s)
  | _ => .fail

/-- `parse_binop` (`src/parser.rs` lines 87-100): any of the ten binary
operator tokens. -/
def parseBinopP (input : List Token) : PRes BinOp :=
  match input with
  | .plus :: rest => .ok rest .plus
  | .minus :: rest => .ok rest .minus
  | .multiply :: rest => .ok rest .multiply
  | .divide :: rest => .ok rest .divide
  | .equal :: rest => .ok rest .equal
  | .notEqual :: rest => .ok rest .notEqual
  | .lessThan :: rest => .ok rest .lessThan
  | .greaterThan :: rest => .ok rest .greaterThan
  | .lessEqual :: rest => .ok rest .lessEqual
  | .greaterEqual :: rest => .ok rest .greaterEqual
  | _ => .fail

/-- `parse_include` (`src/parser.rs` lines 366-374). -/
def parseIncludeP (input : List Token) : PRes String :=
  match input with
  | .includeDir h :: rest => .ok rest h
  | _ => .fail

mutual

/-- `parse_primary_expr` (`src/parser.rs` lines 103-110): literal, then
call, then identifier, then parenthesized expression, in that `alt`
order. -/
def parsePrimary : Nat → List Token → Option (PRes Expr)
  | 0, _ => none
  | f + 1, input =>
    match parseLiteralP input with
    | .ok rest lit => some (.ok rest (.literal lit))
    | .fail =>
      match parseCall f input with
      | none => none
      | some (.ok rest e) => some (.ok rest e)
      | some .fail =>
        match parseIdentP input with
        | .ok rest n => some (.ok rest (.ident n))
        | .fail =>
          match tokenP .lparen input with
          | .fail => some .fail
          | .ok r1 _ =>
            match parseExpr f r1 with
            | none => none
            | some .fail => some .fail
            | some (.ok r2 e) =>
              match tokenP .rparen r2 with
              | .ok r3 _ => some (.ok r3 e)
              | .fail => some .fail

/-- `parse_call` (`src/parser.rs` lines 113-125): an identifier followed by
a parenthesized comma-separated argument list. -/
def parseCall : Nat → List Token → Option (PRes Expr)
  | 0, _ => none
  | f + 1, input =>
    match parseIdentP input with
    | .fail => some .fail
    | .ok r1 name =>
      match tokenP .lparen r1 with
      | .fail => some .fail
      | .ok r2 _ =>
        match parseArgs f r2 with
        | none => none
        | some .fail => some .fail
        | some (.ok r3 args) =>
          match tokenP .rparen r3 with
          | .ok r4 _ => some (.ok r4 (.call name args))
          | .fail => some .fail

/-- nom `separated_list0(comma, parse_expr)`: an empty list when the first
element is absent. -/
def parseArgs : Nat → List Token → Option (PRes (List Expr))
  | 0, _ => none
  | f + 1, input =>
    match parseExpr f input with
    | none => none
    | some .fail => some (.ok input [])
    | some (.ok r1 e) => parseArgsLoop f [e] r1

/-- The iteration of `separated_list0`: on a separator followed by an
element, extend; if the separator matches but the element fails, stop
without consuming the separator. -/
def parseArgsLoop : Nat → List Expr → List Token → Option (PRes (List Expr))
  | 0, _, _ => none
  | f + 1, acc, input =>
    match tokenP .comma input with
    | .fail => some (.ok input acc)
    | .ok r1 _ =>
      match parseExpr f r1 with
      | none => none
      | some .fail => some (.ok input acc)
      | some (.ok r2 e) => parseArgsLoop f (acc ++ [e]) r2

/-- `parse_multiplicative` (`src/parser.rs` lines 128-153): a primary
followed by a left-associative star of `*`/`/` primaries. -/
def parseMultiplicative : Nat → List Token → Option (PRes Expr)
  | 0, _ => none
  | f + 1, input =>
    match parsePrimary f input with
    | none => none
    | some .fail => some .fail
    | some (.ok r e) => mulLoop f e r

/-- The loop of `parse_multiplicative`: `opt(tuple((* or /, primary)))`
per iteration; if the operator matches but the primary fails, the `opt`
yields nothing and the loop stops without consuming the operator. -/
def mulLoop : Nat → Expr → List Token → Option (PRes Expr)
  | 0, _, _ => none
  | f + 1, e, input =>
    match
      (match tokenP .multiply input with
       | .ok r t => PRes.ok r t
       | .fail => tokenP .divide input) with
    | .fail => some (.ok input e)
    | .ok r1 opTok =>
      match parsePrimary f r1 with
      | none => none
      | some .fail => some (.ok input e)
      | some (.ok r2 right) =>
        mulLoop f (.binary e (if opTok = Token.multiply then .multiply else .divide) right) r2

/-- `parse_additive` (`src/parser.rs` lines 156-181): a multiplicative
followed by a left-associative star of `+`/`-` multiplicatives. -/
def parseAdditive : Nat → List Token → Option (PRes Expr)
  | 0, _ => none
  | f + 1, input =>
    match parseMultiplicative f input with
    | none => none
    | some .fail => some .fail
    | some (.ok r e) => addLoop f e r

/-- The loop of `parse_additive`, same `opt` shape as `mulLoop`. -/
def addLoop : Nat → Expr → List Token → Option (PRes Expr)
  | 0, _, _ => none
  | f + 1, e, input =>
    match
      (match tokenP .plus input with
       | .ok r t => PRes.ok r t
       | .fail => tokenP .minus input) with
    | .fail => some (.ok input e)
    | .ok r1 opTok =>
      match parseMultiplicative f r1 with
      | none => none
      | some .fail => some (.ok input e)
      | some (.ok r2 right) =>
        addLoop f (.binary e (if opTok = Token.plus then .plus else .minus) right) r2

/-- `parse_comparison` (`src/parser.rs` lines 184-197): one additive
operand followed by at most one `opt(tuple((parse_binop, parse_additive)))`
application — there is no loop at this precedence level. -/
def parseComparison : Nat → List Token → Option (PRes Expr)
  | 0, _ => none
  | f + 1, input =>
    match parseAdditive f input with
    | none => none
    | some .fail => some .fail
    | some (.ok r1 e) =>
      match parseBinopP r1 with
      | .fail => some (.ok r1 e)
      | .ok r2 op =>
        match parseAdditive f r2 with
        | none => none
        | some .fail => some (.ok r1 e)
        | some (.ok r3 right) => some (.ok r3 (.binary e op right))

/-- `parse_assignment_expr` (`src/parser.rs` lines 200-211): either
`identifier = expr`, or fall through to comparison. -/
def parseAssignmentExpr : Nat → List Token → Option (PRes Expr)
  | 0, _ => none
  | f + 1, input =>
    match
      (match parseIdentP input with
       | .fail => some PRes.fail
       | .ok r1 name =>
         match tokenP .assign r1 with
         | .fail => some PRes.fail
         | .ok r2 _ =>
           match parseExpr f r2 with
           | none => none
           | some .fail => some PRes.fail
           | some (.ok r3 v) => some (PRes.ok r3 (Expr.assign name v))) with
    | none => none
    | some (.ok rest e) => some (.ok rest e)
    | some .fail => parseComparison f input

/-- `parse_expr` (`src/parser.rs` lines 214-216). -/
def parseExpr : Nat → List Token → Option (PRes Expr)
  | 0, _ => none
  | f + 1, input => parseAssignmentExpr f input

/-- `parse_declaration` (`src/parser.rs` lines 219-229):
`type identifier (= expr)? ;`. -/
def parseDeclaration : Nat → List Token → Option (PRes Stmt)
  | 0, _ => none
  | f + 1, input =>
    match parseTypeP input with
    | .fail => some .fail
    | .ok r1 ty =>
      match parseIdentP r1 with
      | .fail => some .fail
      | .ok r2 name =>
        match
          (match tokenP .assign r2 with
           | .fail => some (PRes.ok r2 (Option.none : Option Expr))
           | .ok r3 _ =>
             match parseExpr f r3 with
             | none => none
             | some .fail => some (PRes.ok r2 (Option.none : Option Expr))
             | some (.ok r4 e) => some (PRes.ok r4 (some e))) with
        | none => none
        | some .fail => some .fail
        | some (.ok r5 init) =>
          match tokenP .semicolon r5 with
          | .ok r6 _ => some (.ok r6 (.declaration ty name init))
          | .fail => some .fail

/-- `parse_return` (`src/parser.rs` lines 232-241): `return expr? ;`. -/
def parseReturn : Nat → List Token → Option (PRes Stmt)
  | 0, _ => none
  | f + 1, input =>
    match tokenP .kwReturn input with
    | .fail => some .fail
    | .ok r1 _ =>
      match
        (match parseExpr f r1 with
         | none => none
         | some .fail => some (PRes.ok r1 (Option.none : Option Expr))
         | some (.ok r2 e) => some (PRes.ok r2 (some e))) with
      | none => none
      | some .fail => some .fail
      | some (.ok r3 e) =>
        match tokenP .semicolon r3 with
        | .ok r4 _ => some (.ok r4 (.ret e))
        | .fail => some .fail

/-- `parse_block` (`src/parser.rs` lines 244-253): braces around
`many0(parse_stmt)`. -/
def parseBlock : Nat → List Token → Option (PRes Stmt)
  | 0, _ => none
  | f + 1, input =>
    match tokenP .lbrace input with
    | .fail => some .fail
    | .ok r1 _ =>
      match manyStmts f [] r1 with
      | none => none
      | some .fail => some .fail
      | some (.ok r2 stmts) =>
        match tokenP .rbrace r2 with
        | .ok r3 _ => some (.ok r3 (.block stmts))
        | .fail => some .fail

/-- nom `many0(parse_stmt)`: collect statements until one fails. -/
def manyStmts : Nat → List Stmt → List Token → Option (PRes (List Stmt))
  | 0, _, _ => none
  | f + 1, acc, input =>
    match parseStmt f input with
    | none => none
    | some .fail => some (.ok input acc)
    | some (.ok r s) => manyStmts f (acc ++ [s]) r

/-- `parse_if` (`src/parser.rs` lines 256-270):
`if (expr) stmt (else stmt)?`. -/
def parseIf : Nat → List Token → Option (PRes Stmt)
  | 0, _ => none
  | f + 1, input =>
    match tokenP .kwIf input with
    | .fail => some .fail
    | .ok r1 _ =>
      match tokenP .lparen r1 with
      | .fail => some .fail
      | .ok r2 _ =>
        match parseExpr f r2 with
        | none => none
        | some .fail => some .fail
        | some (.ok r3 cond) =>
          match tokenP .rparen r3 with
          | .fail => some .fail
          | .ok r4 _ =>
            match parseStmt f r4 with
            | none => none
            | some .fail => some .fail
            | some (.ok r5 thenS) =>
              match tokenP .kwElse r5 with
              | .fail => some (.ok r5 (.ifS cond thenS none))
              | .ok r6 _ =>
                match parseStmt f r6 with
                | none => none
                | some .fail => some (.ok r5 (.ifS cond thenS none))
                | some (.ok r7 elseS) => some (.ok r7 (.ifS cond thenS (some elseS)))

/-- `parse_for` (`src/parser.rs` lines 273-299): the init clause is a
declaration, an expression statement or a bare `;`; condition and update
are independently optional. -/
def parseFor : Nat → List Token → Option (PRes Stmt)
  | 0, _ => none
  | f + 1, input =>
    match tokenP .kwFor input with
    | .fail => some .fail
    | .ok r1 _ =>
      match tokenP .lparen r1 with
      | .fail => some .fail
      | .ok r2 _ =>
        match
          (match parseDeclaration f r2 with
           | none => none
           | some (.ok ra s) => some (PRes.ok ra (some s))
           | some .fail =>
             match parseExprStmt f r2 with
             | none => none
             | some (.ok rb s) => some (PRes.ok rb (some s))
             | some .fail =>
               match tokenP .semicolon r2 with
               | .ok rc _ => some (PRes.ok rc (Option.none : Option Stmt))
               | .fail => some PRes.fail) with
        | none => none
        | some .fail => some .fail
        | some (.ok r3 init) =>
          match
            (match parseExpr f r3 with
             | none => none
             | some .fail => some (PRes.ok r3 (Option.none : Option Expr))
             | some (.ok ra c) =>
               match tokenP .semicolon ra with
               | .ok rb _ => some (PRes.ok rb (some c))
               | .fail => some (PRes.ok r3 (Option.none : Option Expr))) with
          | none => none
          | some .fail => some .fail
          | some (.ok r4 cond) =>
            match
              (match parseExpr f r4 with
               | none => none
               | some .fail => some (PRes.ok r4 (Option.none : Option Expr))
               | some (.ok ra u) => some (PRes.ok ra (some u))) with
            | none => none
            | some .fail => some .fail
            | some (.ok r5 update) =>
              match tokenP .rparen r5 with
              | .fail => some .fail
              | .ok r6 _ =>
                match parseStmt f r6 with
                | none => none
                | some .fail => some .fail
                | some (.ok r7 body) =>
                  some (.ok r7 (.forS init cond update body))

/-- `parse_expr_stmt` (`src/parser.rs` lines 302-304): `expr ;`. -/
def parseExprStmt : Nat → List Token → Option (PRes Stmt)
  | 0, _ => none
  | f + 1, input =>
    match parseExpr f input with
    | none => none
    | some .fail => some .fail
    | some (.ok r1 e) =>
      match tokenP .semicolon r1 with
      | .ok r2 _ => some (.ok r2 (.exprS e))
      | .fail => some .fail

/-- `parse_stmt` (`src/parser.rs` lines 307-316): declaration, return, if,
for, block, expression statement, in that `alt` order. -/
def parseStmt : Nat → List Token → Option (PRes Stmt)
  | 0, _ => none
  | f + 1, input =>
    match parseDeclaration f input with
    | none => none
    | some (.ok r s) => some (.ok r s)
    | some .fail =>
      match parseReturn f input with
      | none => none
      | some (.ok r s) => some (.ok r s)
      | some .fail =>
        match parseIf f input with
        | none => none
        | some (.ok r s) => some (.ok r s)
        | some .fail =>
          match parseFor f input with
          | none => none
          | some (.ok r s) => some (.ok r s)
          | some .fail =>
            match parseBlock f input with
            | none => none
            | some (.ok r s) => some (.ok r s)
            | some .fail => parseExprStmt f input

end

/-- A top-level item (`src/parser.rs` `TopLevel`, lines 32-37). -/
inductive TopLevel where
  | inc (header : String)
  | ext (e : ExtFun)
  | fn (f : Function)

/-- `parse_param` (`src/parser.rs` lines 319-321): `type identifier`. -/
def parseParamP (input : List Token) : PRes (Ty × String) :=
  match parseTypeP input with
  | .fail => .fail
  | .ok r1 ty =>
    match parseIdentP r1 with
    | .fail => .fail
    | .ok r2 name => .ok r2 (ty, name)

/-- The iteration of `separated_list0(comma, parse_param)` for function
parameter lists. -/
def parseParamsLoop : Nat → List (Ty × String) → List Token →
    Option (PRes (List (Ty × String)))
  | 0, _, _ => none
  | f + 1, acc, input =>
    match tokenP .comma input with
    | .fail => some (.ok input acc)
    | .ok r1 _ =>
      match parseParamP r1 with
      | .fail => some (.ok input acc)
      | .ok r2 p => parseParamsLoop f (acc ++ [p]) r2

/-- nom `separated_list0(comma, parse_param)`. -/
def parseParams (fuel : Nat) (input : List Token) :
    Option (PRes (List (Ty × String))) :=
  match parseParamP input with
  | .fail => some (.ok input [])
  | .ok r1 p => parseParamsLoop fuel [p] r1

/-- `parse_extern_param_list` (`src/parser.rs` lines 323-342): a loop of
types separated by commas; after a comma either another type or a trailing
`...` (variadic marker); anything else is an error. -/
def parseExtParamList : Nat → List Ty → List Token → Option (PRes (List Ty × Bool))
  | 0, _, _ => none
  | f + 1, types, input =>
    match parseTypeP input with
    | .ok rest ty =>
      match rest with
      | .comma :: r2 => parseExtParamList f (types ++ [ty]) r2
      | _ => some (.ok rest (types ++ [ty], false))
    | .fail =>
      match input with
      | .ellipsis :: r2 => some (.ok r2 (types, true))
      | _ => some .fail

/-- `parse_extern_function` (`src/parser.rs` lines 345-363): the keyworded
external declaration form `type identifier ( types ) ;`. -/
def parseExtFunction (fuel : Nat) (input : List Token) : Option (PRes ExtFun) :=
  match tokenP .kwExt input with
  | .fail => some .fail
  | .ok r1 _ =>
    match parseTypeP r1 with
    | .fail => some .fail
    | .ok r2 retTy =>
      match parseIdentP r2 with
      | .fail => some .fail
      | .ok r3 name =>
        match tokenP .lparen r3 with
        | .fail => some .fail
        | .ok r4 _ =>
          match parseExtParamList fuel [] r4 with
          | none => none
          | some .fail => some .fail
          | some (.ok r5 (ptys, variadic)) =>
            match tokenP .rparen r5 with
            | .fail => some .fail
            | .ok r6 _ =>
              match tokenP .semicolon r6 with
              | .fail => some .fail
              | .ok r7 _ =>
                some (.ok r7 { return_ty := retTy, name := name,
                               param_types := ptys, is_variadic := variadic })

/-- `parse_function` (`src/parser.rs` lines 386-405):
`type identifier ( params ) block`. -/
def parseFunction (fuel : Nat) (input : List Token) : Option (PRes Function) :=
  match parseTypeP input with
  | .fail => some .fail
  | .ok r1 retTy =>
    match parseIdentP r1 with
    | .fail => some .fail
    | .ok r2 name =>
      match tokenP .lparen r2 with
      | .fail => some .fail
      | .ok r3 _ =>
        match parseParams fuel r3 with
        | none => none
        | some .fail => some .fail
        | some (.ok r4 params) =>
          match tokenP .rparen r4 with
          | .fail => some .fail
          | .ok r5 _ =>
            match parseBlock fuel r5 with
            | none => none
            | some .fail => some .fail
            | some (.ok r6 body) =>
              some (.ok r6 { return_ty := retTy, name := name,
                             params := params, body := body })

/-- `parse_top_level` (`src/parser.rs` lines 377-383): include, external
declaration, or function definition, in that `alt` order. -/
def parseTopLevel (fuel : Nat) (input : List Token) : Option (PRes TopLevel) :=
  match parseIncludeP input with
  | .ok r h => some (.ok r (.inc h))
  | .fail =>
    match parseExtFunction fuel input with
    | none => none
    | some (.ok r e) => some (.ok r (.ext e))
    | some .fail =>
      match parseFunction fuel input with
      | none => none
      | some (.ok r f) => some (.ok r (.fn f))
      | some .fail => some .fail

/-- nom `many0(parse_top_level)`: collect items until one fails. -/
def manyTopLevel : Nat → List TopLevel → List Token → Option (PRes (List TopLevel))
  | 0, _, _ => none
  | f + 1, acc, input =>
    match parseTopLevel f input with
    | none => none
    | some .fail => some (.ok input acc)
    | some (.ok r item) => manyTopLevel f (acc ++ [item]) r

/-- One step of the include-resolution loop of `parse` (`src/parser.rs`
lines 428-430): append a registry declaration unless a declaration with
its name is already present. -/
def addExt (acc : List ExtFun) (e : ExtFun) : List ExtFun :=
  if acc.any (fun x => x.name = e.name) then acc else acc ++ [e]

/-- The include-resolution loop of `parse` (`src/parser.rs` lines 425-432):
for each include, append every registry declaration whose name is not
already present among the declarations collected so far. -/
def resolveIncludes (includes : List String) (exts : List ExtFun) : List ExtFun :=
  includes.foldl (fun acc h => (externsForHeader h).foldl addExt acc) exts

/-- Split the parsed top-level items into the three program lists
(`src/parser.rs` lines 414-423), preserving order within each list. -/
def splitItems (items : List TopLevel) : List String × List ExtFun × List Function :=
  items.foldl
    (fun (acc : List String × List ExtFun × List Function) item =>
      match item with
      | .inc h => (acc.1 ++ [h], acc.2.1, acc.2.2)
      | .ext e => (acc.1, acc.2.1 ++ [e], acc.2.2)
      | .fn f => (acc.1, acc.2.1, acc.2.2 ++ [f]))
    ([], [], [])

/-- `parse` from `src/parser.rs` (lines 408-439) at a given fuel:
`many0(parse_top_level)`, failure when tokens remain, then the three item
lists and the include resolution through the header registry. The error
payloads (a debug dump of the leftover tokens, never inspected) are
abstracted to fixed messages. -/
def parseAt (fuel : Nat) (tokens : List Token) : Option (Except String Program) :=
  match manyTopLevel fuel [] tokens with
  | none => none
  | some .fail => some (.error "Parse error")
  | some (.ok remaining items) =>
    if remaining.isEmpty then
      let (includes, exts, fns) := splitItems items
      some (.ok { includes := includes,
                  extFunctions := resolveIncludes includes exts,
                  functions := fns })
    else some (.error "Unexpected tokens at end")

/-- `parse` with fuel ample for its input: every parser consumes fuel only
by nesting, so a linear budget in the token count suffices for any input
that does not exhaust it; all concrete evaluations below check the result
is `some`. -/
def parse (tokens : List Token) : Option (Except String Program) :=
  parseAt (40 * (tokens.length + 2)) tokens

/-! ## Semantic analyzer (`src/semantic.rs`)

The mutable `SemanticAnalyzer` is threaded explicitly. The `scopes` vector
of the source keeps the innermost scope last; here the innermost scope is
the head of the list, so `scopes.last()` becomes the head and
`scopes.iter().rev()` becomes left-to-right traversal. The source's
`Stmt::Assignment` match arms (`src/semantic.rs` lines 97-106) name a
variant that does not exist in `src/ast.rs`, so they have no corresponding
statement constructor here; conversely `Expr::Assignment` (present in
`src/ast.rs` and produced by the parser) has no arm in the source's
`check_expr`, and its case below is modelled from that dead assignment code
(value checked against the variable, undefined variable reported); it is
exercised by no theorem in this file. -/

/-- Analyzer state: global function table, scope stack (innermost first),
collected errors. -/
structure ASt where
  functions : List (String × (Ty × List Ty))
  scopes : List (List (String × Ty))
  errors : List SemanticError

/-- Append one diagnostic (`self.errors.push`). -/
def pushErr (st : ASt) (e : SemanticError) : ASt :=
  { st with errors := st.errors ++ [e] }

/-- The Rust `Debug` rendering of a `Type` value. -/
def tyRepr : Ty → String
  | .int => "Int"
  | .float => "Float"
  | .str => "String"

/-- The Rust `Debug` rendering of an `Option<Type>` value. -/
def optTyRepr : Option Ty → String
  | none => "None"
  | some t => "Some(" ++ tyRepr t ++ ")"

/-- `SemanticAnalyzer::lookup_variable` (`src/semantic.rs` lines 213-220):
walk the scopes innermost to outermost, first hit wins. -/
def lookupVariable (scopes : List (List (String × Ty))) (name : String) :
    Option Ty :=
  match scopes with
  | [] => none
  | s :: rest =>
    match alookup s name with
    | some t => some t
    | none => lookupVariable rest name

mutual

/-- `SemanticAnalyzer::check_expr` (`src/semantic.rs` lines 154-210).
Literals type as themselves; an unknown identifier is an
undefined-variable error with no type; arithmetic requires equal known
operand types and returns it; comparison requires equal known operand
types and returns `Int`; a call to an unknown name is an
undefined-function error (arguments unchecked); a call with the wrong
argument count reports exactly one wrong-argument-count error and returns
the declared return type immediately, without touching the arguments
(lines 193-196); otherwise each argument is checked against its positional
parameter type. -/
def checkExpr (st : ASt) (e : Expr) : ASt × Option Ty :=
  match e with
  | .literal (.int _) => (st, some .int)
  | .literal (.float _) => (st, some .float)
  | .literal (.str _) => (st, some .str)
  | .ident name =>
    match lookupVariable st.scopes name with
    | some ty => (st, some ty)
    | none => (pushErr st (.undefinedVariable name), none)
  | .binary left op right =>
    let p1 := checkExpr st left
    let p2 := checkExpr p1.1 right
    match op with
    | .plus | .minus | .multiply | .divide =>
      if p1.2 = p2.2 ∧ p1.2.isSome then (p2.1, p1.2)
      else (pushErr p2.1 (.typeMismatch "Arithmetic operands must have same type"), none)
    | _ =>
      if p1.2 = p2.2 ∧ p1.2.isSome then (p2.1, some .int)
      else (pushErr p2.1 (.typeMismatch "Comparison operands must have same type"), none)
  | .call name args =>
    match alookup st.functions name with
    | some (retTy, ptys) =>
      if args.length ≠ ptys.length then
        (pushErr st (.wrongArgumentCount name ptys.length args.length), some retTy)
      else
        (checkCallArgs st args ptys 0, some retTy)
    | none => (pushErr st (.undefinedFunction name), none)
  | .assign name value =>
    let p1 := checkExpr st value
    match lookupVariable p1.1.scopes name with
    | some varTy =>
      if p1.2 = some varTy then (p1.1, some varTy)
      else
        (pushErr p1.1 (.typeMismatch
          ("Cannot assign " ++ optTyRepr p1.2 ++ " to " ++ tyRepr varTy)), some varTy)
    | none => (pushErr p1.1 (.undefinedVariable name), none)

/-- The argument-checking loop of `check_expr` for calls (`src/semantic.rs`
lines 197-202), entered only with equally long lists: each argument whose
type is not exactly the positional parameter type is an
`Argument i type mismatch` error. -/
def checkCallArgs (st : ASt) (args : List Expr) (ptys : List Ty) (i : Nat) : ASt :=
  match args, ptys with
  | [], _ => st
  | _ :: _, [] => st
  | arg :: argsRest, pty :: ptysRest =>
    let p := checkExpr st arg
    let st2 :=
      if p.2 = some pty then p.1
      else pushErr p.1 (.typeMismatch ("Argument " ++ toString i ++ " type mismatch"))
    checkCallArgs st2 argsRest ptysRest (i + 1)

end

mutual

/-- `SemanticAnalyzer::check_stmt` (`src/semantic.rs` lines 82-151). A
declaration whose name already exists in the *innermost* scope is a
duplicate-variable error (and then neither the binding nor its initializer
is processed); otherwise the name is bound and a present initializer must
have exactly the declared type. Blocks and `for` loops push and pop a
scope. `if`/`for` conditions must have type `Int`. -/
def checkStmt (st : ASt) (s : Stmt) : ASt :=
  match s with
  | .declaration ty name init =>
    if acontains (st.scopes.headD []) name then
      pushErr st (.duplicateVariable name)
    else
      let st1 : ASt :=
        match st.scopes with
        | inner :: outer => { st with scopes := ainsert inner name ty :: outer }
        | [] => st
      match init with
      | some e =>
        let p := checkExpr st1 e
        if p.2 = some ty then p.1
        else
          pushErr p.1 (.typeMismatch
            ("Cannot assign " ++ optTyRepr p.2 ++ " to " ++ tyRepr ty))
      | none => st1
  | .ret e =>
    match e with
    | some e => (checkExpr st e).1
    | none => st
  | .block stmts =>
    let st1 := { st with scopes := [] :: st.scopes }
    let st2 := checkStmts st1 stmts
    { st2 with scopes := st2.scopes.tail }
  | .ifS cond then_ else_ =>
    let p := checkExpr st cond
    let st1 :=
      if p.2 = some Ty.int then p.1
      else pushErr p.1 (.typeMismatch "Condition must be int")
    let st2 := checkStmt st1 then_
    match else_ with
    | some s => checkStmt st2 s
    | none => st2
  | .forS init cond update body =>
    let st1 := { st with scopes := [] :: st.scopes }
    let st2 :=
      match init with
      | some s => checkStmt st1 s
      | none => st1
    let st3 :=
      match cond with
      | some c =>
        let p := checkExpr st2 c
        if p.2 = some Ty.int then p.1
        else pushErr p.1 (.typeMismatch "Condition must be int")
      | none => st2
    let st4 :=
      match update with
      | some u => (checkExpr st3 u).1
      | none => st3
    let st5 := checkStmt st4 body
    { st5 with scopes := st5.scopes.tail }
  | .exprS e => (checkExpr st e).1

/-- Sequential checking of a block's statements. -/
def checkStmts (st : ASt) (l : List Stmt) : ASt :=
  match l with
  | [] => st
  | s :: rest => checkStmts (checkStmt st s) rest

end

/-- `SemanticAnalyzer::collect_functions` (`src/semantic.rs` lines 53-62):
register each function definition's name with its signature; a repeated
name is reported as a duplicate (the source reuses `DuplicateVariable` for
this) and the first registration is kept. Only `program.functions` is
consulted — external declarations are never registered. -/
def collectFunctions (st : ASt) (fns : List Function) : ASt :=
  fns.foldl
    (fun st f =>
      if acontains st.functions f.name then
        pushErr st (.duplicateVariable f.name)
      else
        { st with functions := ainsert st.functions f.name (f.return_ty, f.params.map (·.1)) })
    st

/-- `SemanticAnalyzer::analyze_function` (`src/semantic.rs` lines 65-79):
push a scope seeded with the parameters (in declaration order, later
duplicates shadowing earlier ones like `HashMap::insert`), check the body,
pop the scope. -/
def analyzeFunction (st : ASt) (f : Function) : ASt :=
  let paramScope := f.params.foldl (fun sc p => ainsert sc p.2 p.1) []
  let st1 := { st with scopes := paramScope :: st.scopes }
  let st2 := checkStmt st1 f.body
  { st2 with scopes := st2.scopes.tail }

/-- `SemanticAnalyzer::analyze` / the `analyze` convenience function
(`src/semantic.rs` lines 44-50 and 224-227): collect the global function
table, then check each function, returning all collected diagnostics. The
fresh analyzer starts with one (global) scope. -/
def analyze (p : Program) : List SemanticError :=
  let st0 : ASt := { functions := [], scopes := [[]], errors := [] }
  let st1 := collectFunctions st0 p.functions
  let st2 := p.functions.foldl analyzeFunction st1
  st2.errors

/-! ## Bytecode compiler (`src/vm.rs`, `Compiler`)

The `Stmt::Assignment` arm of `compile_stmt` (`src/vm.rs` lines 282-285)
names a variant missing from `src/ast.rs` and so has no constructor here;
the `Expr::Assignment` case below is modelled from that dead arm (compile
the value, store it), and the string-literal case (for which `Value` has no
representation at all in `src/vm.rs`) is modelled as loading `Void`;
neither is exercised by any theorem in this file. -/

/-- Compiler state: emitted code and the function entry table
(`src/vm.rs` lines 226-229). -/
structure CSt where
  code : List Opcode
  functions : List (String × Nat)

/-- Append one instruction (`self.code.push`). -/
def emit (st : CSt) (op : Opcode) : CSt :=
  { st with code := st.code ++ [op] }

mutual

/-- `Compiler::compile_expr` (`src/vm.rs` lines 361-380): post-order
emission; a binary expression compiles left, then right, then the
operator; a call compiles the arguments left to right and then the call
instruction carrying the argument count. -/
def compileExpr (st : CSt) (e : Expr) : CSt :=
  match e with
  | .literal (.int i) => emit st (.loadConst (.int i))
  | .literal (.float q) => emit st (.loadConst (.float q))
  | .literal (.str _) => emit st (.loadConst .void)
  | .ident name => emit st (.loadVar name)
  | .binary left op right =>
    emit (compileExpr (compileExpr st left) right) (.binaryOp op)
  | .call name args =>
    emit (compileArgs st args) (.call name args.length)
  | .assign name value =>
    emit (compileExpr st value) (.storeVar name)

/-- Left-to-right compilation of call arguments. -/
def compileArgs (st : CSt) (args : List Expr) : CSt :=
  match args with
  | [] => st
  | a :: rest => compileArgs (compileExpr st a) rest

/-- `Compiler::compile_stmt` (`src/vm.rs` lines 274-359). A declaration
with an initializer compiles it and stores it, one without emits nothing;
`return` compiles its expression (or a `Void` constant) and a return
instruction; `if` and `for` emit conditional skips and jumps with
placeholder targets that are back-patched once the target index is known;
an expression statement discards its value with `Pop`. -/
def compileStmt (st : CSt) (s : Stmt) : CSt :=
  match s with
  | .declaration _ name init =>
    match init with
    | some e => emit (compileExpr st e) (.storeVar name)
    | none => st
  | .ret e =>
    let st1 :=
      match e with
      | some e => compileExpr st e
      | none => emit st (.loadConst .void)
    emit st1 .ret
  | .block stmts => compileStmts st stmts
  | .ifS cond then_ else_ =>
    let st1 := compileExpr st cond
    let jifIdx := st1.code.length
    let st2 := emit st1 (.jumpIfFalse 0)
    let st3 := compileStmt st2 then_
    let jmpIdx := st3.code.length
    let st4 := emit st3 (.jump 0)
    let elseStart := st4.code.length
    let st5 : CSt := { st4 with code := st4.code.set jifIdx (.jumpIfFalse elseStart) }
    let st6 :=
      match else_ with
      | some s => compileStmt st5 s
      | none => st5
    { st6 with code := st6.code.set jmpIdx (.jump st6.code.length) }
  | .forS init cond update body =>
    let st1 :=
      match init with
      | some s => compileStmt st s
      | none => st
    let loopStart := st1.code.length
    let condPair : CSt × Option Nat :=
      match cond with
      | some c =>
        let sa := compileExpr st1 c
        (emit sa (.jumpIfFalse 0), some sa.code.length)
      | none => (st1, none)
    let st3 := compileStmt condPair.1 body
    let st4 :=
      match update with
      | some u => emit (compileExpr st3 u) .pop
      | none => st3
    let st5 := emit st4 (.jump loopStart)
    match condPair.2 with
    | some idx => { st5 with code := st5.code.set idx (.jumpIfFalse st5.code.length) }
    | none => st5
  | .exprS e => emit (compileExpr st e) .pop

/-- Sequential compilation of a block's statements. -/
def compileStmts (st : CSt) (l : List Stmt) : CSt :=
  match l with
  | [] => st
  | s :: rest => compileStmts (compileStmt st s) rest

end

/-- `Compiler::compile_function` (`src/vm.rs` lines 255-272): the prologue
pops the arguments into locals by emitting one `StoreVar` per parameter in
*reverse* declaration order (the caller pushed them left to right), then
the body is compiled, and a `return 0` is synthesized unless the last
emitted instruction is already a return. -/
def compileFunction (st : CSt) (f : Function) : CSt :=
  let st1 := f.params.reverse.foldl (fun s p => emit s (.storeVar p.2)) st
  let st2 := compileStmt st1 f.body
  if st2.code.getLast? = some Opcode.ret then st2
  else emit (emit st2 (.loadConst (.int 0))) .ret

/-- `Compiler::compile` (`src/vm.rs` lines 232-253): for each function in
program order, record its entry index (the current code length) in the
entry table and then compile it; returns the code and the table. -/
def compile (p : Program) : List Opcode × List (String × Nat) :=
  let final :=
    p.functions.foldl
      (fun st f =>
        compileFunction { st with functions := ainsert st.functions f.name st.code.length } f)
      { code := [], functions := [] }
  (final.code, final.functions)

/-! ## Whole-pipeline helpers -/

/-- Lex and parse: `some (ok p)` when both phases succeed, `some (error m)`
for a syntax error, `none` for a lexical error or exhausted parser fuel. -/
def frontend (src : String) : Option (Except String Program) :=
  match lex src with
  | some toks => parse toks
  | none => none

/-- The parsed program of a source text, when the front end accepts it. -/
def parseSource (src : String) : Option Program :=
  match frontend src with
  | some (.ok p) => some p
  | _ => none

/-- The analyzer's diagnostics for a source text accepted by the front
end. -/
def analyzeSource (src : String) : Option (List SemanticError) :=
  match parseSource src with
  | some p => some (analyze p)
  | none => none

/-- Compile a source text accepted by the front end and run the VM on it
with the given fuel. -/
def runSource (src : String) (fuel : Nat) : Option VmOut :=
  match parseSource src with
  | some p => runVM (compile p).1 (compile p).2 fuel
  | none => none

/-! ## Concrete scenario inputs -/

/-- A program accepted by semantic analysis whose execution divides by
zero. -/
def divSrc : String := "int main(){return 1/0;}"

/-- The two-function addition scenario of the spec. -/
def addSrc : String :=
  "int add(int a,int b){return a+b;} int main(){return add(30,12);}"

/-- The duplicate-declaration scenario of the spec. -/
def dupVarSrc : String := "int foo(){int x=5;int x=6;return x;}"

/-- A call with one declared parameter, two arguments, the first of the
wrong type. -/
def wrongCountSrc : String :=
  "int f(int a){return a;} int main(){return f(2.5,3);}"

/-- An include-provided `printf` called from `main`. -/
def includeSrc : String :=
  "#include <stdio.h>\nint main(){printf(1);return 0;}"

/-- Two identical includes and no explicit declaration. -/
def twoIncludeSrc : String :=
  "#include <stdio.h>\n#include <stdio.h>\nint main(){return 0;}"

/-- A chained comparison inside an expression statement. -/
def chainSrc : String := "int main(){a<b<c;}"

/-- The token form of the chained comparison `a < b < c`. -/
def chainToks : List Token :=
  [.ident "a", .lessThan, .ident "b", .lessThan, .ident "c"]

/-- A token sequence with two identical `stdio.h` include directives and
two identical explicit declarations of `printf`. -/
def dupExtToks : List Token :=
  [.includeDir "stdio.h", .includeDir "stdio.h",
   .kwExt, .kwInt, .ident "printf", .lparen, .kwInt, .rparen, .semicolon,
   .kwExt, .kwInt, .ident "printf", .lparen, .kwInt, .rparen, .semicolon]

/-- A token sequence with two identical `stdio.h` include directives and a
minimal `main`. -/
def twoIncToks : List Token :=
  [.includeDir "stdio.h", .includeDir "stdio.h",
   .kwInt, .ident "main", .lparen, .rparen, .lbrace,
   .kwReturn, .intLit 0, .semicolon, .rbrace]

/-- How many declarations named `printf` the program parsed from a token
sequence carries (`none` when the parse does not succeed). -/
def parsedPrintfCount (toks : List Token) : Option Nat :=
  match parse toks with
  | some (.ok p) => some ((p.extFunctions.filter (fun e => e.name = "printf")).length)
  | _ => none

/-! ## Helper lemmas -/

theorem alookup_ainsert {α : Type} (m : List (String × α)) (k k' : String) (v : α) :
    alookup (ainsert m k v) k' = if k = k' then some v else alookup m k' := by
  simp [ainsert, alookup]

theorem pushErr_functions (st : ASt) (e : SemanticError) :
    (pushErr st e).functions = st.functions := rfl

theorem prefix_set {α : Type} (l : List α) :
    ∀ (m : List α) (i : Nat) (a : α), l <+: m → l.length ≤ i → l <+: m.set i a := by
  induction l with
  | nil => intro m i a _ _; exact List.nil_prefix
  | cons x l ih =>
    intro m i a h hi
    obtain ⟨t, ht⟩ := h
    subst ht
    match i, hi with
    | i' + 1, hi =>
      simpa [List.cons_append, List.set] using
        ih (l ++ t) i' a (List.prefix_append l t) (Nat.le_of_succ_le_succ hi)

theorem emit_code (st : CSt) (op : Opcode) : (emit st op).code = st.code ++ [op] := rfl

theorem emit_extends (st : CSt) (op : Opcode) : st.code <+: (emit st op).code :=
  List.prefix_append st.code [op]

mutual

theorem compileExpr_extends : ∀ (st : CSt) (e : Expr), st.code <+: (compileExpr st e).code
  | _, .literal (.int _) => emit_extends _ _
  | _, .literal (.float _) => emit_extends _ _
  | _, .literal (.str _) => emit_extends _ _
  | _, .ident _ => emit_extends _ _
  | st, .binary l _ r =>
    ((compileExpr_extends st l).trans
      (compileExpr_extends (compileExpr st l) r)).trans (emit_extends _ _)
  | st, .call _ args => (compileArgs_extends st args).trans (emit_extends _ _)
  | st, .assign _ v => (compileExpr_extends st v).trans (emit_extends _ _)

theorem compileArgs_extends : ∀ (st : CSt) (args : List Expr),
    st.code <+: (compileArgs st args).code
  | _, [] => List.prefix_refl _
  | st, a :: rest =>
    (compileExpr_extends st a).trans (compileArgs_extends (compileExpr st a) rest)

theorem compileStmt_extends : ∀ (st : CSt) (s : Stmt), st.code <+: (compileStmt st s).code
  | st, .declaration _ name init => by
    match init with
    | some e =>
      exact (compileExpr_extends st e).trans (emit_extends (compileExpr st e) (.storeVar name))
    | none => exact List.prefix_refl _
  | st, .ret e => by
    match e with
    | some e => exact (compileExpr_extends st e).trans (emit_extends _ _)
    | none => exact (emit_extends st (.loadConst .void)).trans (emit_extends _ _)
  | st, .block stmts => compileStmts_extends st stmts
  | st, .ifS cond then_ else_ => by
    cases else_ with
    | none =>
      simp only [compileStmt]
      refine prefix_set _ _ _ _ ?_ ?_
      · refine prefix_set _ _ _ _ ?_ ?_
        · exact ((compileExpr_extends st cond).trans (emit_extends _ _)).trans
            ((compileStmt_extends _ then_).trans (emit_extends _ _))
        · exact (compileExpr_extends st cond).length_le
      · exact (((compileExpr_extends st cond).trans (emit_extends _ _)).trans
          (compileStmt_extends _ then_)).length_le
    | some s =>
      simp only [compileStmt]
      refine prefix_set _ _ _ _ ?_ ?_
      · refine List.IsPrefix.trans ?_ (compileStmt_extends _ s)
        refine prefix_set _ _ _ _ ?_ ?_
        · exact ((compileExpr_extends st cond).trans (emit_extends _ _)).trans
            ((compileStmt_extends _ then_).trans (emit_extends _ _))
        · exact (compileExpr_extends st cond).length_le
      · exact (((compileExpr_extends st cond).trans (emit_extends _ _)).trans
          (compileStmt_extends _ then_)).length_le
  | st, .forS init cond update body => by
    cases init with
    | none =>
      cases cond with
      | none =>
        cases update with
        | none =>
          simp only [compileStmt]
          exact (compileStmt_extends st body).trans (emit_extends _ _)
        | some u =>
          simp only [compileStmt]
          exact ((compileStmt_extends st body).trans
            ((compileExpr_extends _ u).trans (emit_extends _ _))).trans (emit_extends _ _)
      | some c =>
        cases update with
        | none =>
          simp only [compileStmt]
          refine prefix_set _ _ _ _ ?_ ?_
          · exact (((compileExpr_extends st c).trans (emit_extends _ _)).trans
              (compileStmt_extends _ body)).trans (emit_extends _ _)
          · exact (compileExpr_extends st c).length_le
        | some u =>
          simp only [compileStmt]
          refine prefix_set _ _ _ _ ?_ ?_
          · exact ((((compileExpr_extends st c).trans (emit_extends _ _)).trans
              ((compileStmt_extends _ body).trans
                ((compileExpr_extends _ u).trans (emit_extends _ _)))).trans (emit_extends _ _))
          · exact (compileExpr_extends st c).length_le
    | some s0 =>
      cases cond with
      | none =>
        cases update with
        | none =>
          simp only [compileStmt]
          exact ((compileStmt_extends st s0).trans (compileStmt_extends _ body)).trans
            (emit_extends _ _)
        | some u =>
          simp only [compileStmt]
          exact (((compileStmt_extends st s0).trans (compileStmt_extends _ body)).trans
            ((compileExpr_extends _ u).trans (emit_extends _ _))).trans (emit_extends _ _)
      | some c =>
        cases update with
        | none =>
          simp only [compileStmt]
          refine prefix_set _ _ _ _ ?_ ?_
          · exact ((((compileStmt_extends st s0).trans (compileExpr_extends _ c)).trans
              (emit_extends _ _)).trans (compileStmt_extends _ body)).trans (emit_extends _ _)
          · exact ((compileStmt_extends st s0).trans (compileExpr_extends _ c)).length_le
        | some u =>
          simp only [compileStmt]
          refine prefix_set _ _ _ _ ?_ ?_
          · exact (((((compileStmt_extends st s0).trans (compileExpr_extends _ c)).trans
              (emit_extends _ _)).trans
                ((compileStmt_extends _ body).trans
                  ((compileExpr_extends _ u).trans (emit_extends _ _)))).trans (emit_extends _ _))
          · exact ((compileStmt_extends st s0).trans (compileExpr_extends _ c)).length_le
  | st, .exprS e => (compileExpr_extends st e).trans (emit_extends _ _)

theorem compileStmts_extends : ∀ (st : CSt) (l : List Stmt),
    st.code <+: (compileStmts st l).code
  | _, [] => List.prefix_refl _
  | st, s :: rest =>
    (compileStmt_extends st s).trans (compileStmts_extends (compileStmt st s) rest)

end

theorem foldl_emit_store (ps : List (Ty × String)) (st : CSt) :
    (ps.foldl (fun s p => emit s (.storeVar p.2)) st).code
      = st.code ++ ps.map (fun p => Opcode.storeVar p.2) := by
  induction ps generalizing st with
  | nil => simp
  | cons p ps ih =>
    rw [List.foldl_cons, ih]
    simp [emit]

theorem any_addExt (acc : List ExtFun) (e : ExtFun) (p : ExtFun → Bool)
    (h : acc.any p = true) : (addExt acc e).any p = true := by
  unfold addExt
  split
  · exact h
  · simp [List.any_append, h]

theorem any_foldl_addExt (L : List ExtFun) (acc : List ExtFun) (p : ExtFun → Bool)
    (h : acc.any p = true) : (L.foldl addExt acc).any p = true := by
  induction L generalizing acc with
  | nil => exact h
  | cons e L ih => exact ih _ (any_addExt acc e p h)

theorem name_present_after (L : List ExtFun) (acc : List ExtFun) :
    ∀ e ∈ L, ((L.foldl addExt acc).any (fun x => x.name = e.name)) = true := by
  induction L generalizing acc with
  | nil => intro e he; cases he
  | cons e0 L ih =>
    intro e he
    rcases List.mem_cons.mp he with he | he
    · subst he
      refine any_foldl_addExt L _ _ ?_
      unfold addExt
      split
      · assumption
      · simp [List.any_append]
    · exact ih (addExt acc e0) e he

theorem foldl_addExt_skip (L : List ExtFun) (acc : List ExtFun)
    (h : ∀ e ∈ L, acc.any (fun x => x.name = e.name) = true) :
    L.foldl addExt acc = acc := by
  induction L with
  | nil => rfl
  | cons e L ih =>
    have he : addExt acc e = acc := by
      unfold addExt
      rw [if_pos (h e (List.mem_cons_self e L))]
    rw [List.foldl_cons, he]
    exact ih fun e' he' => h e' (List.mem_cons_of_mem e he')

theorem countP_addExt (acc : List ExtFun) (e : ExtFun) (n : String) :
    (addExt acc e).countP (fun x => x.name = n) ≤
      max (acc.countP (fun x => x.name = n)) 1 := by
  unfold addExt
  split
  · exact le_max_left _ _
  · rename_i h
    rw [List.countP_append]
    by_cases hn : e.name = n
    · have hz : acc.countP (fun x => x.name = n) = 0 := by
        rw [List.countP_eq_zero]
        intro a ha hpa
        exact h (List.any_eq_true.mpr ⟨a, ha, by
          simp only [decide_eq_true_eq] at hpa ⊢
          rw [hpa, hn]⟩)
      simp [hz, List.countP_cons, hn]
    · simp [List.countP_cons, hn]

theorem countP_foldl_addExt (L : List ExtFun) (acc : List ExtFun) (n : String) :
    ((L.foldl addExt acc).countP (fun x => x.name = n)) ≤
      max (acc.countP (fun x => x.name = n)) 1 := by
  induction L generalizing acc with
  | nil => exact le_max_left _ _
  | cons e L ih =>
    refine le_trans (ih (addExt acc e)) ?_
    refine le_trans (max_le_max (countP_addExt acc e n) (le_refl 1)) ?_
    rw [max_assoc, max_self]

theorem collect_lookup_none (fns : List Function) :
    ∀ (st : ASt) (name : String),
      alookup st.functions name = none → (∀ f ∈ fns, f.name ≠ name) →
      alookup (collectFunctions st fns).functions name = none := by
  induction fns with
  | nil =>
    intro st name h _
    simpa [collectFunctions] using h
  | cons f fns ih =>
    intro st name h hf
    have hstep : alookup
        ((if acontains st.functions f.name then pushErr st (.duplicateVariable f.name)
          else { st with
            functions := ainsert st.functions f.name (f.return_ty, f.params.map (·.1)) })
              : ASt).functions name = none := by
      split
      · simpa [pushErr] using h
      · simp [ainsert, alookup, hf f (List.mem_cons_self f fns), h]
    have := ih _ name hstep fun g hg => hf g (List.mem_cons_of_mem f hg)
    simpa [collectFunctions, List.foldl_cons] using this

/-! ## Claims -/

/-- C1: the claim says a program accepted by semantic analysis can never make
`VM::run` panic — every binary operation on two `Int` or two `Float`
operands, division included, is supposed to yield a `Value`. The code
violates this: `int main(){return 1/0;}` is accepted with an empty
diagnostic sequence, yet running it reaches `eval_binary(Int 1, Divide,
Int 0)`, whose `l / r` (`src/vm.rs` line 197) panics in Rust on a zero
divisor, so the run aborts with a panic (`crash`), not with a `Value` or an
`Err`. -/
theorem C1_division_by_zero_panics :
    analyzeSource divSrc = some [] ∧
    evalBinary (Value.int 1) BinOp.divide (Value.int 0) = none ∧
    runSource divSrc 100 = some VmOut.crash :=
  ⟨rfl, rfl, rfl⟩

/-- C2 counterexample: the claim includes the discard instruction `Pop`
among the instructions whose pop of an empty operand stack is a fatal
stack-underflow fault, but `Opcode::Pop` (`src/vm.rs` lines 181-183)
discards the result of `Vec::pop` and silently continues: a run whose only
instruction is `Pop` executes it on an empty operand stack and completes
with `Ok(Void)` instead of aborting. -/
theorem C2_pop_ignores_empty_stack_cx :
    step { code := [Opcode.pop], stack := [], frames := [⟨1, []⟩], ip := 0,
           functions := [("main", 0)] }
      = .cont { code := [Opcode.pop], stack := [], frames := [⟨1, []⟩], ip := 1,
                functions := [("main", 0)] } ∧
    runVM [Opcode.pop] [("main", 0)] 2 = some (VmOut.val Value.void) :=
  ⟨rfl, rfl⟩

/-- C2 amended: executing `StoreVar`, `BinaryOp` or `JumpIfFalse` with an
empty operand stack is a fatal stack-underflow runtime fault aborting the
run with the message `Stack underflow`; the discard instruction `Pop`,
however, silently ignores the empty stack and execution continues with the
next instruction. -/
theorem C2_stack_underflow (st : VMState) (hstack : st.stack = []) :
    (∀ name, st.code.get? st.ip = some (.storeVar name) →
       step st = .stop (.fault "Stack underflow")) ∧
    (∀ op, st.code.get? st.ip = some (.binaryOp op) →
       step st = .stop (.fault "Stack underflow")) ∧
    (∀ t, st.code.get? st.ip = some (.jumpIfFalse t) →
       step st = .stop (.fault "Stack underflow")) ∧
    (st.code.get? st.ip = some .pop →
       step st = .cont { st with ip := st.ip + 1, stack := [] }) := by
  refine ⟨fun name hg => ?_, fun op hg => ?_, fun t hg => ?_, fun hg => ?_⟩ <;>
    rw [List.get?_eq_getElem?] at hg <;> simp [step, hg, hstack]

/-- C2 witness: the amended theorem applied to a concrete empty-stack state
holding a `StoreVar`. -/
theorem C2_stack_underflow_witness :
    step { code := [Opcode.storeVar "x"], stack := [], frames := [], ip := 0,
           functions := [] } = .stop (.fault "Stack underflow") :=
  (C2_stack_underflow
    { code := [Opcode.storeVar "x"], stack := [], frames := [], ip := 0,
      functions := [] } rfl).1 "x" rfl

/-- C3 counterexample: `f` declares one `int` parameter and is called as
`f(2.5, 3)`. The claim predicts a wrong-argument-count error and then a
type mismatch for the float first argument; the analyzer reports only the
single wrong-argument-count error, because `check_expr` returns
immediately after it (`src/semantic.rs` lines 193-196) without
type-checking any argument. -/
theorem C3_no_argument_check_cx :
    analyzeSource wrongCountSrc = some [SemanticError.wrongArgumentCount "f" 1 2] :=
  rfl

/-- C3 amended: a call to a known function with the wrong argument count
reports exactly one wrong-argument-count error and returns the declared
return type immediately, skipping argument type-checking entirely (the
arguments are not even traversed); positional argument types are checked
only when the counts match. -/
theorem C3_wrong_count_early_return (st : ASt) (name : String) (args : List Expr)
    (retTy : Ty) (ptys : List Ty)
    (hlook : alookup st.functions name = some (retTy, ptys)) :
    (args.length ≠ ptys.length →
      checkExpr st (.call name args) =
        (pushErr st (.wrongArgumentCount name ptys.length args.length), some retTy)) ∧
    (args.length = ptys.length →
      checkExpr st (.call name args) = (checkCallArgs st args ptys 0, some retTy)) := by
  refine ⟨fun hlen => ?_, fun hlen => ?_⟩
  · simp only [checkExpr, hlook]
    rw [if_pos hlen]
  · simp only [checkExpr, hlook]
    rw [if_neg (by simp [hlen])]

/-- C3 witness: the amended theorem applied to a one-parameter function
called with two arguments. -/
theorem C3_wrong_count_witness :
    checkExpr { functions := [("f", (Ty.int, [Ty.int]))], scopes := [[]], errors := [] }
        (.call "f" [.literal (.int 1), .literal (.int 2)])
      = (pushErr { functions := [("f", (Ty.int, [Ty.int]))], scopes := [[]], errors := [] }
          (.wrongArgumentCount "f" 1 2), some Ty.int) :=
  (C3_wrong_count_early_return
    { functions := [("f", (Ty.int, [Ty.int]))], scopes := [[]], errors := [] }
    "f" [.literal (.int 1), .literal (.int 2)] Ty.int [Ty.int] rfl).1 (by decide)

/-- C4 counterexample: the `Type` enumeration of the AST (`src/ast.rs`
lines 22-28, embedded verbatim as `AstType`) does not contain three
pairwise distinct values — it declares only `Int` and `Float`, so the
claimed closed set `{Int, Float, String}` does not exist in the AST. -/
theorem C4_no_three_types_cx :
    ¬ ∃ (a b c : AstType), a ≠ b ∧ a ≠ c ∧ b ≠ c := by decide

/-- C4 amended: the `Type` enumeration of the AST is exactly the closed
two-element set `{Int, Float}`, and the analyzer assigns `Int` to every
integer literal and `Float` to every float literal; `src/ast.rs` has no
`String` type and no string-literal payload (the `String` variant used by
the parser, the header registry and the code generator does not exist in
the AST's own `Type` enumeration). -/
theorem C4_two_types :
    (∀ t : AstType, t = AstType.int ∨ t = AstType.float) ∧
    AstType.int ≠ AstType.float ∧
    (∀ (st : ASt) (n : Int), checkExpr st (.literal (.int n)) = (st, some Ty.int)) ∧
    (∀ (st : ASt) (q : ℚ), checkExpr st (.literal (.float q)) = (st, some Ty.float)) := by
  refine ⟨fun t => ?_, by decide, fun st n => rfl, fun st q => rfl⟩
  cases t
  · exact Or.inl rfl
  · exact Or.inr rfl

theorem resolveIncludes_idem (h : String) (rest : List String) (exts : List ExtFun) :
    resolveIncludes (h :: h :: rest) exts = resolveIncludes (h :: rest) exts := by
  simp only [resolveIncludes, List.foldl_cons]
  congr 1
  exact foldl_addExt_skip _ _ (name_present_after _ _)

theorem resolveIncludes_countP (includes : List String) (exts : List ExtFun) (n : String) :
    ((resolveIncludes includes exts).countP (fun x => x.name = n)) ≤
      max (exts.countP (fun x => x.name = n)) 1 := by
  induction includes generalizing exts with
  | nil => exact le_max_left _ _
  | cons h rest ih =>
    simp only [resolveIncludes, List.foldl_cons]
    refine le_trans (ih ((externsForHeader h).foldl addExt exts)) ?_
    refine le_trans (max_le_max (countP_foldl_addExt _ _ _) (le_refl 1)) ?_
    rw [max_assoc, max_self]

/-- C5 counterexample: the claim's universal statement — every token
sequence containing two identical `stdio.h` include directives yields a
program with exactly one declaration named `printf` — fails: a sequence
that also contains two identical *explicit* declarations of `printf`
parses to a program with two of them, because the name-based skipping of
`src/parser.rs` lines 425-432 applies only to registry-injected
declarations, never to explicitly parsed ones. -/
theorem C5_explicit_duplicates_cx :
    dupExtToks.count (Token.includeDir "stdio.h") = 2 ∧
    parsedPrintfCount dupExtToks = some 2 :=
  ⟨rfl, rfl⟩

/-- C5 amended: include resolution skips any registry declaration whose
name is already explicitly declared or already added — processing a
duplicated header twice is the same as processing it once, and resolution
never pushes the count of any name above one unless explicit declarations
already exceed it — and a token sequence with two identical `stdio.h`
includes and no explicit `printf` declaration yields exactly one injected
`printf` declaration (shown both at the token level and through the full
front end). Explicit duplicate declarations are outside the deduplication. -/
theorem C5_include_dedup :
    (∀ (h : String) (rest : List String) (exts : List ExtFun),
        resolveIncludes (h :: h :: rest) exts = resolveIncludes (h :: rest) exts) ∧
    (∀ (includes : List String) (exts : List ExtFun) (n : String),
        ((resolveIncludes includes exts).countP (fun x => x.name = n)) ≤
          max (exts.countP (fun x => x.name = n)) 1) ∧
    parsedPrintfCount twoIncToks = some 1 ∧
    (parseSource twoIncludeSrc).map
        (fun p => (p.extFunctions.filter (fun e => e.name = "printf")).length)
      = some 1 :=
  ⟨resolveIncludes_idem, resolveIncludes_countP, rfl, rfl⟩

/-- C6: the comparison precedence level admits at most one operator
application: any successful `parse_comparison` is its left additive
operand followed by at most one `(parse_binop, parse_additive)` pair; on
the tokens of `a < b < c` the parser consumes only `a < b` (producing the
single `Binary` node) and leaves `< c` unconsumed, which makes the whole
`parse` call on `int main(){a<b<c;}` fail with a syntax error about
leftover tokens. -/
theorem C6_comparison_no_chain :
    (∀ (f : Nat) (toks rest : List Token) (e : Expr),
        parseComparison (f + 1) toks = some (.ok rest e) →
        parseAdditive f toks = some (.ok rest e) ∨
        ∃ mid l mid2 op r,
          parseAdditive f toks = some (.ok mid l) ∧
          parseBinopP mid = .ok mid2 op ∧
          parseAdditive f mid2 = some (.ok rest r) ∧
          e = .binary l op r) ∧
    parseComparison 50 chainToks =
      some (.ok [Token.lessThan, Token.ident "c"]
        (.binary (.ident "a") .lessThan (.ident "b"))) ∧
    frontend chainSrc = some (.error "Unexpected tokens at end") := by
  refine ⟨?_, rfl, rfl⟩
  intro f toks rest e h
  simp only [parseComparison] at h
  cases h1 : parseAdditive f toks with
  | none => simp [h1] at h
  | some pr =>
    cases pr with
    | fail => simp [h1] at h
    | ok r1 e1 =>
      simp only [h1] at h
      cases h2 : parseBinopP r1 with
      | fail =>
        simp only [h2] at h
        have h' : r1 = rest ∧ e1 = e := by simpa using h
        obtain ⟨hr, he⟩ := h'
        subst hr
        subst he
        exact Or.inl rfl
      | ok r2 op =>
        simp only [h2] at h
        cases h3 : parseAdditive f r2 with
        | none => simp [h3] at h
        | some pr2 =>
          cases pr2 with
          | fail =>
            simp only [h3] at h
            have h' : r1 = rest ∧ e1 = e := by simpa using h
            obtain ⟨hr, he⟩ := h'
            subst hr
            subst he
            exact Or.inl rfl
          | ok r3 right =>
            simp only [h3] at h
            have h' : r3 = rest ∧ Expr.binary e1 op right = e := by simpa using h
            obtain ⟨hr, he⟩ := h'
            subst hr
            subst he
            exact Or.inr ⟨r1, e1, r2, op, right, rfl, h2, h3, rfl⟩

/-- C6 witness: the characterization applied to the concrete `a < b < c`
token sequence. -/
theorem C6_comparison_no_chain_witness :
    parseAdditive 49 chainToks =
      some (.ok [Token.lessThan, Token.ident "c"]
        (.binary (.ident "a") .lessThan (.ident "b"))) ∨
    ∃ mid l mid2 op r,
      parseAdditive 49 chainToks = some (.ok mid l) ∧
      parseBinopP mid = .ok mid2 op ∧
      parseAdditive 49 mid2 = some (.ok [Token.lessThan, Token.ident "c"] r) ∧
      Expr.binary (.ident "a") .lessThan (.ident "b") = .binary l op r :=
  C6_comparison_no_chain.1 49 chainToks [Token.lessThan, Token.ident "c"]
    (.binary (.ident "a") .lessThan (.ident "b")) rfl

/-- C7: the full pipeline on the two-function addition program yields
`Int 42`, and the compiled prologue of every function is one `StoreVar`
per parameter in reverse declaration order (the span of the emitted code
for the function starts with exactly those instructions, and back-patching
never touches them). -/
theorem C7_add_scenario :
    runSource addSrc 100 = some (.val (.int 42)) ∧
    ∀ (st : CSt) (f : Function),
      ((compileFunction st f).code.drop st.code.length).take f.params.length
        = f.params.reverse.map (fun p => Opcode.storeVar p.2) := by
  refine ⟨rfl, fun st f => ?_⟩
  have hst1 := foldl_emit_store f.params.reverse st
  have h2 := compileStmt_extends
    (f.params.reverse.foldl (fun s p => emit s (.storeVar p.2)) st) f.body
  have h3 : (f.params.reverse.foldl (fun s p => emit s (.storeVar p.2)) st).code <+:
      (compileFunction st f).code := by
    simp only [compileFunction]
    split
    · exact h2
    · exact h2.trans ((emit_extends _ _).trans (emit_extends _ _))
  obtain ⟨t, ht⟩ := h3
  rw [← ht, hst1, List.append_assoc, List.drop_left]
  exact List.take_left' (by simp)

/-- C8: a declaration whose name is already present in the innermost scope
is reported as a duplicate-variable error (and nothing else happens),
while declaring a name absent from the innermost scope — even one bound in
an outer scope, i.e. shadowing — produces no diagnostic; and analyzing
the program parsed from `int foo(){int x=5;int x=6;return x;}` yields
exactly the single diagnostic `DuplicateVariable("x")`. -/
theorem C8_innermost_duplicate :
    analyzeSource dupVarSrc = some [SemanticError.duplicateVariable "x"] ∧
    (∀ (st : ASt) (ty : Ty) (name : String),
        acontains (st.scopes.headD []) name = false →
        (checkStmt st (.declaration ty name none)).errors = st.errors) ∧
    (∀ (st : ASt) (ty : Ty) (name : String) (init : Option Expr),
        acontains (st.scopes.headD []) name = true →
        checkStmt st (.declaration ty name init) =
          pushErr st (.duplicateVariable name)) := by
  refine ⟨rfl, ?_, ?_⟩
  · intro st ty name h
    simp only [checkStmt]
    rw [if_neg (by rcases hs : st.scopes with _ | ⟨inner, outer⟩ <;>
      rw [hs] at h <;> simpa using h)]
    rcases hs : st.scopes with _ | ⟨inner, outer⟩ <;> simp [hs]
  · intro st ty name init h
    simp only [checkStmt]
    rw [if_pos h]

/-- C8 witness: shadowing an outer-scope `x` produces no diagnostic, and a
duplicate in the innermost scope produces exactly the duplicate-variable
diagnostic. -/
theorem C8_innermost_duplicate_witness :
    (checkStmt { functions := [], scopes := [[], [("x", Ty.int)]], errors := [] }
        (.declaration Ty.int "x" none)).errors = [] ∧
    checkStmt { functions := [], scopes := [[("x", Ty.int)]], errors := [] }
        (.declaration Ty.int "x" none)
      = pushErr { functions := [], scopes := [[("x", Ty.int)]], errors := [] }
          (.duplicateVariable "x") :=
  ⟨C8_innermost_duplicate.2.1
      { functions := [], scopes := [[], [("x", Ty.int)]], errors := [] } Ty.int "x" rfl,
   C8_innermost_duplicate.2.2
      { functions := [], scopes := [[("x", Ty.int)]], errors := [] } Ty.int "x" none rfl⟩

/-- C9: when the function-entry table has no entry named `main`, `VM::run`
returns the fatal startup failure (even with zero fuel — no instruction is
ever executed); when `main` is present, the run is the loop started from a
single seed frame whose return address is the length of the instruction
sequence, with the instruction pointer at `main`'s recorded entry. -/
theorem C9_main_startup :
    (∀ (code : List Opcode) (functions : List (String × Nat)) (fuel : Nat),
        alookup functions "main" = none →
        runVM code functions fuel = some (.fault mainNotFoundMsg)) ∧
    (∀ (code : List Opcode) (functions : List (String × Nat)) (fuel : Nat) (addr : Nat),
        alookup functions "main" = some addr →
        runVM code functions fuel =
          runLoop fuel { code := code, stack := [], frames := [⟨code.length, []⟩],
                         ip := addr, functions := functions }) := by
  constructor
  · intro code functions fuel h
    simp [runVM, h]
  · intro code functions fuel addr h
    simp [runVM, h]

/-- C9 witness: the startup behaviour at concrete inputs, the missing-main
case taken at fuel zero. -/
theorem C9_main_startup_witness :
    runVM [] [] 0 = some (.fault mainNotFoundMsg) ∧
    runVM [Opcode.halt] [("main", 0)] 5 =
      runLoop 5 { code := [Opcode.halt], stack := [], frames := [⟨1, []⟩], ip := 0,
                  functions := [("main", 0)] } :=
  ⟨C9_main_startup.1 [] [] 0 rfl,
   C9_main_startup.2 [Opcode.halt] [("main", 0)] 5 0 rfl⟩

/-- C10: the global collection phase registers only function definitions —
a name absent from `program.functions` is absent from the table no matter
what `extern_functions` holds — and a call to a name missing from the
table is an undefined-function error regardless of its arguments (which
are not even traversed); concretely, the include-injected `printf` is in
the parsed program's declaration table but calling it is rejected as an
undefined function. -/
theorem C10_externs_not_registered :
    (∀ (p : Program) (name : String),
        (∀ f ∈ p.functions, f.name ≠ name) →
        alookup (collectFunctions { functions := [], scopes := [[]], errors := [] }
          p.functions).functions name = none) ∧
    (∀ (st : ASt) (name : String) (args : List Expr),
        alookup st.functions name = none →
        checkExpr st (.call name args) = (pushErr st (.undefinedFunction name), none)) ∧
    (parseSource includeSrc).map (fun p => p.extFunctions.map (fun e => e.name))
      = some ["printf"] ∧
    analyzeSource includeSrc = some [SemanticError.undefinedFunction "printf"] := by
  refine ⟨?_, ?_, rfl, rfl⟩
  · intro p name h
    exact collect_lookup_none p.functions _ name rfl h
  · intro st name args h
    simp [checkExpr, h]

/-- C10 witness: the collection and call-checking facts at concrete
inputs. -/
theorem C10_externs_not_registered_witness :
    alookup (collectFunctions { functions := [], scopes := [[]], errors := [] }
      (Program.functions ⟨[], [], []⟩)).functions "printf" = none ∧
    checkExpr { functions := [], scopes := [[]], errors := [] }
        (.call "printf" [.literal (.int 1)])
      = (pushErr { functions := [], scopes := [[]], errors := [] }
          (.undefinedFunction "printf"), none) :=
  ⟨C10_externs_not_registered.1 ⟨[], [], []⟩ "printf" (fun _ hf => nomatch hf),
   C10_externs_not_registered.2.1
      { functions := [], scopes := [[]], errors := [] } "printf" [.literal (.int 1)] rfl⟩

end Virtuc
